import Mathlib

/-!
Verification of the GIF conversion backend (`src/server.js`).

The development shallowly embeds the claim-relevant parts of the server:

* `escapeShellPath` (server.js:24-26) together with a model of how a POSIX
  shell reads a double-quoted word (the server passes its command string to
  `child_process.exec`, which runs it through `/bin/sh -c`);
* the parameter normalization of the `/gif` route (server.js:67-73), where a
  raw field is modelled by the result of `parseInt` / `parseFloat` on it
  (`none` standing for JavaScript `NaN`, i.e. parse failure or absence);
* the stderr classification of the `/gif` exec callback (server.js:119-132);
* the exit/callback/stream event handling of the `/gif` route
  (server.js:114-220) as a deterministic state machine: Node fires the
  child's `exit` event before the `exec` callback (which waits for the stdio
  streams to close), so the run sequences the `exit` handler first;
* the regex-based stderr parsing of `/video-info` (server.js:248-290);
* the temp path construction of both routes (server.js:61-64 and 239-240),
  with `os.tmpdir()` taken to be `/tmp` (the configured upload temp dir) and
  `path.join` modelled with its normalization of `.` and `..` segments,
  which matters because the joined name is user-controlled.
-/

/-! ## PathSafety: `escapeShellPath` and the shell's reading of its output -/

/-- The `filePath.replace(/"/g, '\\"')` step of `escapeShellPath`
(server.js:25): every double quote becomes backslash-quote. -/
def escQuotes : List Char → List Char
  | [] => []
  | c :: cs => if c = '"' then '\\' :: '"' :: escQuotes cs else c :: escQuotes cs

/-- `escapeShellPath` (server.js:24-26): wrap the replaced path in double
quotes. -/
def escapeShellPath (p : String) : String :=
  String.mk ('"' :: (escQuotes p.data ++ ['"']))

/-- The backquote character (code 96), written via `Char.ofNat`. -/
def backquoteChar : Char := Char.ofNat 96

/-- Model of a POSIX shell reading the inside of a double-quoted region
(the server's command string is interpreted by `/bin/sh -c` via `exec`).
Returns the literal contribution to the current word and the unconsumed
rest after the closing quote.  Inside double quotes, backslash escapes
quote, backslash, dollar and backquote; a backslash before any other
character stays literal; a bare `$` or backquote starts an expansion whose
result is not the literal text, which the model reports as `none`;
an unterminated region is also `none`. -/
def dqBody : List Char → Option (List Char × List Char)
  | [] => none
  | c :: rest =>
    if c = '"' then some ([], rest)
    else if c = '\\' then
      match rest with
      | [] => none
      | d :: rest2 =>
        if d = '"' ∨ d = '\\' ∨ d = '$' ∨ d = backquoteChar then
          (dqBody rest2).map fun p => (d :: p.1, p.2)
        else
          (dqBody rest2).map fun p => ('\\' :: d :: p.1, p.2)
    else if c = '$' ∨ c = backquoteChar then none
    else (dqBody rest).map fun p => (c :: p.1, p.2)

/-- Model of the shell reading one fully double-quoted word: an opening
quote followed by a quoted region.  Returns the word's literal content and
whatever follows the closing quote. -/
def shellReadWord (l : List Char) : Option (List Char × List Char) :=
  match l with
  | '"' :: rest => dqBody rest
  | _ => none

/-! ## ParameterNormalizer (server.js:67-73)

A raw field is modelled by its JavaScript parse result: `none` is `NaN`
(absent or malformed input), `some v` a successfully parsed number.
`parseInt` results are integers, `parseFloat` results are modelled as
rationals. -/

/-- JavaScript `x || d` on a `parseInt` result: `NaN` and `0` are falsy,
so both are replaced by the default. -/
def jsOrInt (v : Option Int) (d : Int) : Int :=
  match v with
  | none => d
  | some n => if n = 0 then d else n

/-- JavaScript `x || d` on a `parseFloat` result. -/
def jsOrRat (v : Option ℚ) (d : ℚ) : ℚ :=
  match v with
  | none => d
  | some x => if x = 0 then d else x

/-- `Math.max(5, Math.min(30, parseInt(req.body.fps) || 15))` (server.js:67). -/
def normFps (raw : Option Int) : Int := max 5 (min 30 (jsOrInt raw 15))

/-- `Math.max(240, Math.min(1920, parseInt(req.body.scale) || 480))`
(server.js:68-71). -/
def normScale (raw : Option Int) : Int := max 240 (min 1920 (jsOrInt raw 480))

/-- `Math.max(0, parseFloat(req.body.startTime) || 0)` (server.js:72). -/
def normStartTime (raw : Option ℚ) : ℚ := max 0 (jsOrRat raw 0)

/-- `Math.max(0, parseFloat(req.body.duration) || 0)` (server.js:73). -/
def normDuration (raw : Option ℚ) : ℚ := max 0 (jsOrRat raw 0)

/-- Modelled from the spec: normalization as the spec words it, substituting
the default only on parse failure or absence and then clamping, used to
compare against the source's `normFps`. -/
def normFpsSpecModel (raw : Option Int) : Int := max 5 (min 30 (raw.getD 15))

/-- Modelled from the spec: the spec's wording of scale normalization. -/
def normScaleSpecModel (raw : Option Int) : Int :=
  max 240 (min 1920 (raw.getD 480))

/-! ## JobSupervisor: stderr classification (server.js:119-132) -/

/-- The specific error kinds of the `/gif` error branch. -/
inductive FfmpegErrorKind
  | invalidInput
  | notFound
  | permissionDenied
  | generic
deriving DecidableEq

/-- Whether the character list `l` starts with the pattern `pat`. -/
def startsWithChars : List Char → List Char → Bool
  | [], _ => true
  | _ :: _, [] => false
  | c :: cs, d :: ds => c = d && startsWithChars cs ds

/-- Whether `pat` occurs as a contiguous run somewhere in `l`. -/
def hasSubChars (pat : List Char) : List Char → Bool
  | [] => startsWithChars pat []
  | c :: rest => startsWithChars pat (c :: rest) || hasSubChars pat rest

/-- JavaScript `s.includes(pat)`: substring containment. -/
def containsSub (s pat : String) : Bool := hasSubChars pat.data s.data

/-- The `if/else if` classification chain of the exec callback
(server.js:121-127). -/
def classifyStderr (stderr : String) : FfmpegErrorKind :=
  if containsSub stderr "Invalid data found" then .invalidInput
  else if containsSub stderr "No such file" then .notFound
  else if containsSub stderr "Permission denied" then .permissionDenied
  else .generic

/-! ## The `/gif` route after `exec` (server.js:114-220)

`gifRun` models the event handling of one conversion job from the moment
`exec` has been called: the uploaded input temp file exists (verified at
server.js:84), and the process finishes in one of the scenarios described
by the arguments.  Node fires the child's `exit` event before the `exec`
callback (the callback waits for the stdio streams to close), so the run
applies the `exit` handler first.  `timedOut` means the 120s deadline
expired and `exec` killed the child with the default `SIGTERM`; in that
case the callback still receives a non-null error.  `respond` records every
response-send attempt in order; an attempt made while `headersSent` is
already true would raise `ERR_HTTP_HEADERS_SENT` at runtime.  Streaming is
modelled as setting the headers (so `headersSent` becomes true) and then
either the `end` or the `error` stream event firing, per `streamOk`. -/

/-- The response attempts the `/gif` handler can make. -/
inductive GifResponse
  | timeoutErr
  | ffmpegErr (kind : FfmpegErrorKind)
  | noOutputFile
  | emptyOutputFile
  | gifStream (size : Nat)
  | streamFailErr
deriving DecidableEq

/-- State of one `/gif` job: response bookkeeping plus the two temp files.
`output = none` means the output file does not exist; `some n` that it
exists with `n` bytes.  `inputDeletes`/`outputDeletes` count actual
`unlinkSync` calls on each path, `cleanupCalls` the invocations of
`cleanup()`. -/
structure GifState where
  headersSent : Bool
  inputExists : Bool
  output : Option Nat
  responses : List GifResponse
  cleanupCalls : Nat
  inputDeletes : Nat
  outputDeletes : Nat
deriving DecidableEq

/-- `cleanup()` (server.js:207-220): unlink each path only if it still
exists (`existsSync` guard), so repeated calls delete each file at most
once. -/
def doCleanup (st : GifState) : GifState :=
  let st1 :=
    if st.inputExists then
      { st with inputExists := false, inputDeletes := st.inputDeletes + 1 }
    else st
  let st2 :=
    if st1.output.isSome then
      { st1 with output := none, outputDeletes := st1.outputDeletes + 1 }
    else st1
  { st2 with cleanupCalls := st2.cleanupCalls + 1 }

/-- Record a response-send attempt. -/
def respond (r : GifResponse) (st : GifState) : GifState :=
  { st with responses := st.responses ++ [r], headersSent := true }

/-- The `child.on("exit")` handler (server.js:186-196): on a `SIGTERM`
(deadline) kill it cleans up and, if no headers were sent yet, responds
with the timeout error. -/
def exitHandler (timedOut : Bool) (st : GifState) : GifState :=
  if timedOut then
    let st1 := doCleanup st
    if st1.headersSent then st1 else respond .timeoutErr st1
  else st

/-- The `exec` callback (server.js:114-183).  `err` is non-null exactly
when the process was killed by the deadline or exited nonzero; that branch
classifies stderr and responds 500 (server.js:115-133, with no cleanup
call).  On a null error the output file is checked (server.js:136-149,
also without cleanup on the failure branches) and otherwise streamed, with
cleanup on the stream's `end` or `error` event (server.js:168-182). -/
def execCallback (timedOut exitZero : Bool) (stderr : String) (streamOk : Bool)
    (st : GifState) : GifState :=
  if timedOut || !exitZero then
    respond (.ffmpegErr (classifyStderr stderr)) st
  else
    match st.output with
    | none => respond .noOutputFile st
    | some 0 => respond .emptyOutputFile st
    | some (n + 1) =>
      let st1 := respond (.gifStream (n + 1)) st
      if streamOk then doCleanup st1
      else
        let st2 := doCleanup st1
        if st2.headersSent then st2 else respond .streamFailErr st2

/-- One `/gif` job from the `exec` call to quiescence: the `exit` handler
fires first, then the `exec` callback (and the stream events it installs). -/
def gifRun (timedOut exitZero : Bool) (stderr : String) (out : Option Nat)
    (streamOk : Bool) : GifState :=
  execCallback timedOut exitZero stderr streamOk
    (exitHandler timedOut
      { headersSent := false, inputExists := true, output := out,
        responses := [], cleanupCalls := 0, inputDeletes := 0,
        outputDeletes := 0 })

/-! ## MetadataParser: the `/video-info` stderr regexes (server.js:254-269)

Each matcher reproduces the corresponding JavaScript regex search: scan for
the leftmost starting position at which the pattern matches.  For these
patterns greedy maximal runs coincide with the regex engine's backtracking
semantics (a shorter digit run always leaves a digit as the next character,
which none of the follow-up pieces can accept), except for the `{3,4}`
counted repetitions, where the four-then-three backtracking is explicit. -/

/-- Numeric value of a digit character. -/
def digitVal (c : Char) : Nat := c.toNat - 48

/-- Match a literal pattern at the head of the input, returning the rest. -/
def dropLit : List Char → List Char → Option (List Char)
  | [], l => some l
  | _ :: _, [] => none
  | c :: cs, d :: ds => if c = d then dropLit cs ds else none

/-- Match exactly two digits (a `\d{2}` group), returning their value. -/
def digit2 : List Char → Option (Nat × List Char)
  | a :: b :: rest =>
    if a.isDigit && b.isDigit then some (10 * digitVal a + digitVal b, rest)
    else none
  | _ => none

/-- Try `Duration: (\d{2}):(\d{2}):(\d{2})\.(\d{2})` at this position. -/
def tryDurationAt (l : List Char) : Option (Nat × Nat × Nat × Nat) :=
  match dropLit "Duration: ".data l with
  | none => none
  | some r1 =>
    match digit2 r1 with
    | none => none
    | some (h, r2) =>
      match r2 with
      | ':' :: r3 =>
        match digit2 r3 with
        | none => none
        | some (m, r4) =>
          match r4 with
          | ':' :: r5 =>
            match digit2 r5 with
            | none => none
            | some (s, r6) =>
              match r6 with
              | '.' :: r7 =>
                match digit2 r7 with
                | none => none
                | some (cs, _) => some (h, m, s, cs)
              | _ => none
          | _ => none
      | _ => none

/-- Leftmost match of the duration regex. -/
def findDuration : List Char → Option (Nat × Nat × Nat × Nat)
  | [] => none
  | c :: rest =>
    match tryDurationAt (c :: rest) with
    | some r => some r
    | none => findDuration rest

/-- `stderr.match(/Duration: (\d{2}):(\d{2}):(\d{2})\.(\d{2})/)`
(server.js:256-258), returning the four captured numbers. -/
def durationMatchS (s : String) : Option (Nat × Nat × Nat × Nat) :=
  findDuration s.data

/-- Match exactly `k` digits, accumulating their value. -/
def takeExactDigits : Nat → Nat → List Char → Option (Nat × List Char)
  | 0, acc, l => some (acc, l)
  | k + 1, acc, c :: rest =>
    if c.isDigit then takeExactDigits k (10 * acc + digitVal c) rest else none
  | _ + 1, _, [] => none

/-- The `(\d{3,4})x` part of the resolution regex: greedily try four
digits followed by `x`, backtracking to three. -/
def resGroupX (l : List Char) : Option (Nat × List Char) :=
  match takeExactDigits 4 0 l with
  | some (w, 'x' :: r) => some (w, r)
  | _ =>
    match takeExactDigits 3 0 l with
    | some (w, 'x' :: r) => some (w, r)
    | _ => none

/-- The trailing `(\d{3,4})` of the resolution regex: four digits if
available, else three. -/
def resGroup2 (l : List Char) : Option Nat :=
  match takeExactDigits 4 0 l with
  | some (h, _) => some h
  | none =>
    match takeExactDigits 3 0 l with
    | some (h, _) => some h
    | none => none

/-- Try `(\d{3,4})x(\d{3,4})` at this position. -/
def tryResAt (l : List Char) : Option (Nat × Nat) :=
  match resGroupX l with
  | none => none
  | some (w, r) =>
    match resGroup2 r with
    | some h => some (w, h)
    | none => none

/-- Leftmost match of the resolution regex. -/
def findRes : List Char → Option (Nat × Nat)
  | [] => none
  | c :: rest =>
    match tryResAt (c :: rest) with
    | some r => some r
    | none => findRes rest

/-- `stderr.match(/(\d{3,4})x(\d{3,4})/)` (server.js:259). -/
def resMatchS (s : String) : Option (Nat × Nat) := findRes s.data

/-- Maximal digit run: value, number of digits consumed, and the rest. -/
def digitsRun : List Char → Nat → Nat → Nat × Nat × List Char
  | [], acc, k => (acc, k, [])
  | c :: rest, acc, k =>
    if c.isDigit then digitsRun rest (10 * acc + digitVal c) (k + 1)
    else (acc, k, c :: rest)

/-- The `(\d+(?:\.\d+)?)` number of the fps regex, as a rational
(`parseFloat` of the matched text). -/
def fpsNumber (l : List Char) : Option (ℚ × List Char) :=
  match digitsRun l 0 0 with
  | (ip, k, r1) =>
    if k = 0 then none
    else
      match r1 with
      | '.' :: r2 =>
        match digitsRun r2 0 0 with
        | (fp, k2, r3) =>
          if k2 = 0 then some ((ip : ℚ), '.' :: r2)
          else some ((ip : ℚ) + (fp : ℚ) / (10 : ℚ) ^ k2, r3)
      | _ => some ((ip : ℚ), r1)

/-- Try `(\d+(?:\.\d+)?)\s*fps` at this position. -/
def tryFpsAt (l : List Char) : Option ℚ :=
  match fpsNumber l with
  | none => none
  | some (v, r) =>
    match dropLit "fps".data (r.dropWhile Char.isWhitespace) with
    | some _ => some v
    | none => none

/-- Leftmost match of the fps regex. -/
def findFps : List Char → Option ℚ
  | [] => none
  | c :: rest =>
    match tryFpsAt (c :: rest) with
    | some v => some v
    | none => findFps rest

/-- `stderr.match(/(\d+(?:\.\d+)?)\s*fps/)` (server.js:260). -/
def fpsMatchS (s : String) : Option ℚ := findFps s.data

/-- Try `bitrate: (\d+)\s*kb\/s` at this position. -/
def tryBitrateAt (l : List Char) : Option Nat :=
  match dropLit "bitrate: ".data l with
  | none => none
  | some r1 =>
    match digitsRun r1 0 0 with
    | (v, k, r2) =>
      if k = 0 then none
      else
        match dropLit "kb/s".data (r2.dropWhile Char.isWhitespace) with
        | some _ => some v
        | none => none

/-- Leftmost match of the bitrate regex. -/
def findBitrate : List Char → Option Nat
  | [] => none
  | c :: rest =>
    match tryBitrateAt (c :: rest) with
    | some v => some v
    | none => findBitrate rest

/-- `stderr.match(/bitrate: (\d+)\s*kb\/s/)` (server.js:261). -/
def bitrateMatchS (s : String) : Option Nat := findBitrate s.data

/-- The metadata fields parsed from stderr (server.js:271-279); `filename`
and `fileSize` come from the upload, not from the parse, and are omitted. -/
structure VideoInfo where
  duration : ℚ
  width : Option Nat
  height : Option Nat
  fps : Option ℚ
  bitrate : Option Nat
deriving DecidableEq

/-- The stderr parse of `/video-info` (server.js:256-279): `none` when no
duration pattern is found (the hard failure branch at server.js:280-285),
otherwise the metadata record, the other three matches each independently
optional. -/
def videoInfoParse (stderr : String) : Option VideoInfo :=
  match durationMatchS stderr with
  | none => none
  | some (h, m, s, cs) =>
    some
      { duration := (h : ℚ) * 3600 + (m : ℚ) * 60 + (s : ℚ) + (cs : ℚ) / 100
        width := (resMatchS stderr).map Prod.fst
        height := (resMatchS stderr).map Prod.snd
        fps := fpsMatchS stderr
        bitrate := bitrateMatchS stderr }

/-- The three response shapes of the `/video-info` exec callback. -/
inductive InfoResponse
  | info (v : VideoInfo)
  | parseFailed
  | extractionFailed
deriving DecidableEq

/-- The `/video-info` exec callback's response selection (server.js:248-290).
The callback signature receives the execution error, but the body never
inspects it: `if (stderr)` guards on the diagnostic text alone, so the
model keeps the `errSet` argument unused exactly as the source does. -/
def videoInfoCallback (errSet : Bool) (stderr : String) : InfoResponse :=
  if stderr.isEmpty then .extractionFailed
  else
    match videoInfoParse stderr with
    | some v => .info v
    | none => .parseFailed

/-! ## Temp path construction (server.js:61-64, 239-240) -/

/-- Decimal digit characters. -/
def digitChar (n : Nat) : Char :=
  match n with
  | 0 => '0'
  | 1 => '1'
  | 2 => '2'
  | 3 => '3'
  | 4 => '4'
  | 5 => '5'
  | 6 => '6'
  | 7 => '7'
  | 8 => '8'
  | _ => '9'

/-- Decimal rendering of a natural number (the `${timestamp}` template
interpolation), with explicit fuel so that it reduces by evaluation. -/
def natReprAux : Nat → Nat → List Char
  | 0, _ => []
  | fuel + 1, n =>
    if n < 10 then [digitChar n]
    else natReprAux fuel (n / 10) ++ [digitChar (n % 10)]

/-- Decimal rendering of a timestamp. -/
def natRepr (n : Nat) : List Char := natReprAux (n + 1) n

/-- Split a character list into the segments between `/` separators
(keeping empty segments, as `path` does before normalization). -/
def splitOnSlash : List Char → List (List Char)
  | [] => [[]]
  | c :: rest =>
    if c = '/' then [] :: splitOnSlash rest
    else
      match splitOnSlash rest with
      | [] => [[c]]
      | seg :: segs => (c :: seg) :: segs

/-- Normalization pass of Node's `path.join` over the segments of an
absolute path: empty and `.` segments are dropped, `..` pops the previous
segment (and is dropped at the root). -/
def normStack : List (List Char) → List (List Char) → List (List Char)
  | stack, [] => stack.reverse
  | stack, seg :: segs =>
    if seg = [] ∨ seg = ['.'] then normStack stack segs
    else if seg = ['.', '.'] then normStack stack.tail segs
    else normStack (seg :: stack) segs

/-- Rejoin normalized segments with `/`. -/
def joinSegs : List (List Char) → List Char
  | [] => []
  | [s] => s
  | s :: rest => s ++ '/' :: joinSegs rest

/-- `path.join(tempDir, rel)` with `os.tmpdir()` as `/tmp`: concatenate
with a separator, then normalize `.` and `..` segments and duplicate
slashes; the result is absolute, so `..` cannot climb above the root.
The upload name inside `rel` is user-controlled and may itself contain
`/` and `..` segments, which this normalization resolves. -/
def pathJoinTmp (rel : List Char) : String :=
  String.mk ('/' :: joinSegs (normStack [] (splitOnSlash ("tmp/".data ++ rel))))

/-- `path.join(tempDir, `input-${timestamp}-${video.name}`)`
(server.js:63). -/
def gifInputPath (t : Nat) (name : String) : String :=
  pathJoinTmp ("input-".data ++ (natRepr t ++ '-' :: name.data))

/-- `path.join(tempDir, `gif-${timestamp}.gif`)` (server.js:64). -/
def gifOutputPath (t : Nat) : String :=
  pathJoinTmp ("gif-".data ++ (natRepr t ++ ".gif".data))

/-- `path.join(tempDir, `info-${Date.now()}-${video.name}`)`
(server.js:240). -/
def infoInputPath (t : Nat) (name : String) : String :=
  pathJoinTmp ("info-".data ++ (natRepr t ++ '-' :: name.data))

/-! ## Claim theorems -/

/-- C4: classification of a failed subprocess's diagnostic text is a
first-match-wins substring check in the fixed priority order
"Invalid data found" (invalid/corrupted input), then "No such file"
(not found/access), then "Permission denied", else generic. -/
theorem C4_classification_priority (s : String) :
    (containsSub s "Invalid data found" = true →
      classifyStderr s = .invalidInput) ∧
    (containsSub s "Invalid data found" = false →
      containsSub s "No such file" = true →
      classifyStderr s = .notFound) ∧
    (containsSub s "Invalid data found" = false →
      containsSub s "No such file" = false →
      containsSub s "Permission denied" = true →
      classifyStderr s = .permissionDenied) ∧
    (containsSub s "Invalid data found" = false →
      containsSub s "No such file" = false →
      containsSub s "Permission denied" = false →
      classifyStderr s = .generic) := by
  refine ⟨fun h1 => ?_, fun h1 h2 => ?_, fun h1 h2 h3 => ?_,
    fun h1 h2 h3 => ?_⟩ <;> simp [classifyStderr, *]

/-- Witness for C4: text containing all three phrases classifies as
invalid input, the later matches notwithstanding. -/
theorem C4_classification_priority_witness :
    containsSub "Invalid data found: No such file: Permission denied"
      "No such file" = true ∧
    containsSub "Invalid data found: No such file: Permission denied"
      "Permission denied" = true ∧
    classifyStderr "Invalid data found: No such file: Permission denied" =
      .invalidInput :=
  ⟨by decide, by decide,
    (C4_classification_priority
      "Invalid data found: No such file: Permission denied").1 (by decide)⟩

/-- C5: on a zero-status exit the handler responds per the output file:
missing file yields the no-output error, an existing zero-byte file the
empty-output error, and an existing non-empty file the streamed GIF. -/
theorem C5_output_verification (stderr : String) (streamOk : Bool) (n : Nat) :
    (gifRun false true stderr none streamOk).responses = [.noOutputFile] ∧
    (gifRun false true stderr (some 0) streamOk).responses =
      [.emptyOutputFile] ∧
    (gifRun false true stderr (some (n + 1)) streamOk).responses =
      [.gifStream (n + 1)] := by
  cases streamOk <;> simp [gifRun, execCallback, exitHandler, respond, doCleanup]

/-- C1 (code bug): the error branches of the exec callback respond without
ever calling `cleanup()`, so the input temp file (and, on the empty-output
branch, the output file) is left behind; the success path, by contrast,
cleans up exactly once. -/
theorem C1_error_paths_skip_cleanup :
    ((gifRun false false "Invalid data found" none true).cleanupCalls = 0 ∧
      (gifRun false false "Invalid data found" none true).inputExists = true ∧
      (gifRun false false "Invalid data found" none true).responses =
        [.ffmpegErr .invalidInput]) ∧
    ((gifRun false true "" none true).cleanupCalls = 0 ∧
      (gifRun false true "" none true).inputExists = true) ∧
    ((gifRun false true "" (some 0) true).cleanupCalls = 0 ∧
      (gifRun false true "" (some 0) true).inputExists = true ∧
      (gifRun false true "" (some 0) true).output = some 0) ∧
    ((gifRun false true "" (some 5) true).cleanupCalls = 1 ∧
      (gifRun false true "" (some 5) true).inputExists = false ∧
      (gifRun false true "" (some 5) true).output = none) := by decide

/-- C2 (code bug): when the deadline kills the process, the exit handler
cleans up and responds with the timeout error, but the exec callback then
also treats the killed process as an FFmpeg failure and attempts a second
500 response. -/
theorem C2_timeout_also_reports_process_failure :
    (gifRun true false "" none true).responses =
      [.timeoutErr, .ffmpegErr .generic] ∧
    (gifRun true false "" none true).cleanupCalls = 1 ∧
    (gifRun true false "" none true).inputExists = false := by decide

/-- C6 counterexample: a successfully parsed `0` is replaced by the default
(JavaScript `||` treats `0` as falsy), not clamped as the claim states: the
spec-modelled normalizer clamps `0` up to the range minimum instead. -/
theorem C6_counterexample :
    normFps (some 0) = 15 ∧ normScale (some 0) = 480 ∧
    normFpsSpecModel (some 0) = 5 ∧ normScaleSpecModel (some 0) = 240 ∧
    normFps (some 0) ≠ normFpsSpecModel (some 0) := by decide

/-- C6 amended: each field is parsed and clamped to its range, but the
default is substituted both on parse failure and when the parsed value is
`0`; for the start offset and duration the default is `0`, so there
substitution on a parsed `0` is indistinguishable from clamping. -/
theorem C6_default_on_falsy (n : Int) (q : ℚ) (hn : n ≠ 0) :
    normFps (some n) = max 5 (min 30 n) ∧
    normScale (some n) = max 240 (min 1920 n) ∧
    normFps none = 15 ∧ normScale none = 480 ∧
    normFps (some 0) = 15 ∧ normScale (some 0) = 480 ∧
    normStartTime (some q) = max 0 q ∧
    normDuration (some q) = max 0 q ∧
    normStartTime none = 0 ∧ normDuration none = 0 := by
  refine ⟨by simp [normFps, jsOrInt, hn], by simp [normScale, jsOrInt, hn],
    by decide, by decide, by decide, by decide, ?_, ?_, by decide, by decide⟩ <;>
  · by_cases hq : q = 0 <;>
      simp [normStartTime, normDuration, jsOrRat, hq]

/-- Witness for C6 amended: a parsed nonzero value is clamped, not
defaulted. -/
theorem C6_default_on_falsy_witness :
    normFps (some 7) = max 5 (min 30 7) :=
  (C6_default_on_falsy 7 0 (by decide)).1

/-- C7: whatever the parse results of the four raw fields (including parse
failure), the normalized parameters always land in their documented closed
ranges; the embedding is total, so normalization never throws. -/
theorem C7_normalize_in_range (f s : Option Int) (st du : Option ℚ) :
    5 ≤ normFps f ∧ normFps f ≤ 30 ∧
    240 ≤ normScale s ∧ normScale s ≤ 1920 ∧
    0 ≤ normStartTime st ∧ 0 ≤ normDuration du :=
  ⟨le_max_left _ _, max_le (by norm_num) (min_le_left _ _),
    le_max_left _ _, max_le (by norm_num) (min_le_left _ _),
    le_max_left _ _, le_max_left _ _⟩

/-- Reading the escaped form of a path that contains no backslash, dollar
or backquote recovers exactly the path, and stops exactly at the closing
quote. -/
theorem dqBody_escQuotes (rest : List Char) (l : List Char)
    (h : ∀ c ∈ l, c ≠ '\\' ∧ c ≠ '$' ∧ c ≠ backquoteChar) :
    dqBody (escQuotes l ++ '"' :: rest) = some (l, rest) := by
  induction l with
  | nil =>
    simp only [escQuotes, List.nil_append]
    rw [dqBody.eq_def]
    simp
  | cons c cs ih =>
    obtain ⟨h1, h2, h3⟩ := h c (List.mem_cons_self c cs)
    have ih' := ih fun d hd => h d (List.mem_cons_of_mem c hd)
    by_cases hq : c = '"'
    · subst hq
      simp only [escQuotes, if_pos rfl, List.cons_append]
      show (dqBody (escQuotes cs ++ '"' :: rest)).map
          (fun p => ('"' :: p.1, p.2)) = some ('"' :: cs, rest)
      rw [ih']
      rfl
    · simp only [escQuotes, if_neg hq, List.cons_append]
      rw [dqBody.eq_def]
      simp only []
      rw [if_neg hq, if_neg h1, if_neg (not_or.mpr ⟨h2, h3⟩), ih']
      rfl

/-- C3 counterexample: for the two-character path backslash-quote, the
shell does not receive the literal path as a single argument — the escaped
form collapses to a lone backslash and leaks a stray quote into the rest
of the command line. -/
theorem C3_counterexample :
    shellReadWord (escapeShellPath "\\\"").data ≠
      some ("\\\"".data, ([] : List Char)) ∧
    shellReadWord (escapeShellPath "\\\"").data =
      some ("\\".data, "\"".data) := by
  constructor <;> decide

/-- C3 amended: for every path free of backslash, dollar and backquote
characters (double quotes and spaces are fine), the escaped form is read
by the shell as a single argument whose content is the literal path, with
the remainder of the command line untouched. -/
theorem C3_quoted_path_single_argument (p : String)
    (h : ∀ c ∈ p.data, c ≠ '\\' ∧ c ≠ '$' ∧ c ≠ backquoteChar)
    (rest : List Char) :
    shellReadWord ((escapeShellPath p).data ++ rest) = some (p.data, rest) := by
  show dqBody ((escQuotes p.data ++ ['"']) ++ rest) = some (p.data, rest)
  rw [List.append_assoc, List.singleton_append]
  exact dqBody_escQuotes rest p.data h

/-- Witness for C3 amended: a path with spaces and embedded double quotes
comes through as one literal argument. -/
theorem C3_quoted_path_single_argument_witness :
    shellReadWord ((escapeShellPath "my movie \"final\".mp4").data ++ [' ']) =
      some ("my movie \"final\".mp4".data, [' ']) :=
  C3_quoted_path_single_argument "my movie \"final\".mp4" (by decide) [' ']

/-- C8: the duration pattern converts to total seconds as
hours×3600 + minutes×60 + seconds + hundredths/100 (so `Duration:
00:01:05.50` yields 65.5 = 131/2); text without the pattern is the hard
no-duration failure; resolution, frame rate and bitrate are each
independently optional and absent-safe. -/
theorem C8_metadata_parsing (s : String) :
    (durationMatchS s = none → videoInfoParse s = none) ∧
    (∀ h m sec cs, durationMatchS s = some (h, m, sec, cs) →
      ∃ v, videoInfoParse s = some v ∧
        v.duration =
          (h : ℚ) * 3600 + (m : ℚ) * 60 + (sec : ℚ) + (cs : ℚ) / 100) ∧
    videoInfoParse "Duration: 00:01:05.50" =
      some ⟨131 / 2, none, none, none, none⟩ ∧
    videoInfoParse "Duration: 00:01:05.50, 1280x720, 30 fps, bitrate: 1000 kb/s" =
      some ⟨131 / 2, some 1280, some 720, some 30, some 1000⟩ := by
  refine ⟨fun hd => by simp [videoInfoParse, hd], fun h m sec cs hd => ?_, ?_, ?_⟩
  · refine ⟨⟨(h : ℚ) * 3600 + (m : ℚ) * 60 + (sec : ℚ) + (cs : ℚ) / 100,
      (resMatchS s).map Prod.fst, (resMatchS s).map Prod.snd,
      fpsMatchS s, bitrateMatchS s⟩, ?_, rfl⟩
    simp [videoInfoParse, hd]
  · have hd : durationMatchS "Duration: 00:01:05.50" = some (0, 1, 5, 50) := by
      decide
    have hr : resMatchS "Duration: 00:01:05.50" = none := by decide
    have hf : fpsMatchS "Duration: 00:01:05.50" = none := by decide
    have hb : bitrateMatchS "Duration: 00:01:05.50" = none := by decide
    simp [videoInfoParse, hd, hr, hf, hb]
    norm_num
  · have hd : durationMatchS
        "Duration: 00:01:05.50, 1280x720, 30 fps, bitrate: 1000 kb/s" =
        some (0, 1, 5, 50) := by decide
    have hr : resMatchS
        "Duration: 00:01:05.50, 1280x720, 30 fps, bitrate: 1000 kb/s" =
        some (1280, 720) := by decide
    have hf : fpsMatchS
        "Duration: 00:01:05.50, 1280x720, 30 fps, bitrate: 1000 kb/s" =
        some 30 := by
      have h0 : findFps
          "Duration: 00:01:05.50, 1280x720, 30 fps, bitrate: 1000 kb/s".data =
          some ((30 : Nat) : ℚ) := by decide
      simpa [fpsMatchS] using h0
    have hb : bitrateMatchS
        "Duration: 00:01:05.50, 1280x720, 30 fps, bitrate: 1000 kb/s" =
        some 1000 := by decide
    simp [videoInfoParse, hd, hr, hf, hb]
    norm_num

/-- Witness for C8: one text without the duration pattern fails hard, one
with it succeeds with the converted total. -/
theorem C8_metadata_parsing_witness :
    videoInfoParse "no duration here" = none ∧
    (∃ v, videoInfoParse "Duration: 00:01:05.50" = some v ∧
      v.duration = ((0 : Nat) : ℚ) * 3600 + ((1 : Nat) : ℚ) * 60 +
        ((5 : Nat) : ℚ) + ((50 : Nat) : ℚ) / 100) :=
  ⟨(C8_metadata_parsing "no duration here").1 (by decide),
    (C8_metadata_parsing "Duration: 00:01:05.50").2.1 0 1 5 50 (by decide)⟩

/-- C10: the `/video-info` response depends only on the diagnostic text,
never on the execution error: any two error states give the same response,
non-empty text with a duration pattern yields the success payload, and
empty text always yields the extraction-failed error. -/
theorem C10_response_ignores_exit_status (e e' : Bool) (s : String) :
    videoInfoCallback e s = videoInfoCallback e' s ∧
    (∀ h m sec cs, durationMatchS s = some (h, m, sec, cs) →
      ∃ v, videoInfoCallback e s = .info v) ∧
    videoInfoCallback e "" = .extractionFailed := by
  refine ⟨rfl, fun h m sec cs hd => ?_, rfl⟩
  by_cases he : s.isEmpty
  · exfalso
    have hs : s = "" := (String.isEmpty_iff s).mp he
    subst hs
    have hnone : durationMatchS "" = none := by decide
    rw [hnone] at hd
    exact Option.noConfusion hd
  · refine ⟨⟨(h : ℚ) * 3600 + (m : ℚ) * 60 + (sec : ℚ) + (cs : ℚ) / 100,
      (resMatchS s).map Prod.fst, (resMatchS s).map Prod.snd,
      fpsMatchS s, bitrateMatchS s⟩, ?_⟩
    simp [videoInfoCallback, he, videoInfoParse, hd]

/-- Witness for C10: a probe whose exec reported an error still answers
with the parsed metadata, because only stderr is consulted. -/
theorem C10_response_ignores_exit_status_witness :
    ∃ v, videoInfoCallback true "Duration: 00:01:05.50" = .info v :=
  (C10_response_ignores_exit_status true false "Duration: 00:01:05.50").2.1
    0 1 5 50 (by decide)

/-- Decode the decimal digits back to the rendered number. -/
def decodeDigits (l : List Char) : Nat :=
  l.foldl (fun a c => 10 * a + digitVal c) 0

/-- Digit characters decode to their value. -/
theorem digitVal_digitChar (k : Nat) (h : k < 10) :
    digitVal (digitChar k) = k := by
  interval_cases k <;> rfl

/-- Digit characters are never the dash separator. -/
theorem digitChar_ne_dash (k : Nat) : digitChar k ≠ '-' := by
  unfold digitChar
  split <;> decide

/-- Decoding steps once over a trailing digit. -/
theorem decodeDigits_append (l : List Char) (c : Char) :
    decodeDigits (l ++ [c]) = 10 * decodeDigits l + digitVal c := by
  simp [decodeDigits, List.foldl_append]

/-- With enough fuel, rendering then decoding is the identity. -/
theorem decodeDigits_natReprAux (fuel : Nat) :
    ∀ n, n < fuel → decodeDigits (natReprAux fuel n) = n := by
  induction fuel with
  | zero => intro n hn; omega
  | succ fuel ih =>
    intro n hn
    unfold natReprAux
    by_cases h10 : n < 10
    · simp [h10, decodeDigits, digitVal_digitChar n h10]
    · have hdiv : n / 10 < fuel := by omega
      simp only [h10, if_false]
      rw [decodeDigits_append, ih (n / 10) hdiv,
        digitVal_digitChar (n % 10) (Nat.mod_lt n (by omega))]
      omega

/-- Rendering then decoding is the identity. -/
theorem decodeDigits_natRepr (n : Nat) : decodeDigits (natRepr n) = n :=
  decodeDigits_natReprAux (n + 1) n (Nat.lt_succ_self n)

/-- Decimal rendering is injective. -/
theorem natRepr_injective {a b : Nat} (h : natRepr a = natRepr b) : a = b := by
  have ha := decodeDigits_natRepr a
  rw [h, decodeDigits_natRepr] at ha
  omega

/-- A rendered number contains no dash. -/
theorem natReprAux_ne_dash (fuel : Nat) :
    ∀ n, ∀ c ∈ natReprAux fuel n, c ≠ '-' := by
  induction fuel with
  | zero => intro n c hc; simp [natReprAux] at hc
  | succ fuel ih =>
    intro n c hc
    unfold natReprAux at hc
    by_cases h10 : n < 10
    · simp [h10] at hc
      subst hc
      exact digitChar_ne_dash n
    · simp only [h10, if_false, List.mem_append, List.mem_singleton] at hc
      rcases hc with hc | hc
      · exact ih (n / 10) c hc
      · subst hc; exact digitChar_ne_dash _

/-- A rendered timestamp contains no dash. -/
theorem natRepr_ne_dash (n : Nat) : ∀ c ∈ natRepr n, c ≠ '-' :=
  natReprAux_ne_dash (n + 1) n

/-- Two dash-free blocks followed by a dash-delimited tail can only be
equal blockwise: the first dash pins the boundary. -/
theorem append_dash_inj :
    ∀ (a b u v : List Char), (∀ c ∈ a, c ≠ '-') → (∀ c ∈ b, c ≠ '-') →
      a ++ '-' :: u = b ++ '-' :: v → a = b ∧ u = v := by
  intro a
  induction a with
  | nil =>
    intro b u v _ hb h
    cases b with
    | nil => simpa using h
    | cons d bs =>
      exfalso
      simp only [List.nil_append, List.cons_append, List.cons.injEq] at h
      exact hb d (List.mem_cons_self d bs) h.1.symm
  | cons c as ih =>
    intro b u v ha hb h
    cases b with
    | nil =>
      exfalso
      simp only [List.nil_append, List.cons_append, List.cons.injEq] at h
      exact ha c (List.mem_cons_self c as) h.1
    | cons d bs =>
      simp only [List.cons_append, List.cons.injEq] at h
      obtain ⟨rfl, h2⟩ := h
      obtain ⟨h3, h4⟩ := ih bs u v (fun x hx => ha x (List.mem_cons_of_mem c hx))
        (fun x hx => hb x (List.mem_cons_of_mem c hx)) h2
      exact ⟨by rw [h3], h4⟩

/-- Lists differing at a position inside both left parts stay different
after appending anything. -/
theorem append_ne_of_ne_at (p q r s : List Char) (i : Nat)
    (hp : i < p.length) (hq : i < q.length) (hne : p[i]? ≠ q[i]?) :
    p ++ r ≠ q ++ s := by
  intro he
  apply hne
  rw [← List.getElem?_append_left hp, he, List.getElem?_append_left hq]

/-- Digit characters are never the path separator. -/
theorem digitChar_ne_slash (k : Nat) : digitChar k ≠ '/' := by
  unfold digitChar
  split <;> decide

/-- A rendered number contains no path separator. -/
theorem natReprAux_ne_slash (fuel : Nat) :
    ∀ n, ∀ c ∈ natReprAux fuel n, c ≠ '/' := by
  induction fuel with
  | zero => intro n c hc; simp [natReprAux] at hc
  | succ fuel ih =>
    intro n c hc
    unfold natReprAux at hc
    by_cases h10 : n < 10
    · simp [h10] at hc
      subst hc
      exact digitChar_ne_slash n
    · simp only [h10, if_false, List.mem_append, List.mem_singleton] at hc
      rcases hc with hc | hc
      · exact ih (n / 10) c hc
      · subst hc; exact digitChar_ne_slash _

/-- A rendered timestamp contains no path separator. -/
theorem natRepr_ne_slash (n : Nat) : ∀ c ∈ natRepr n, c ≠ '/' :=
  natReprAux_ne_slash (n + 1) n

/-- Splitting starts a new segment exactly at a slash. -/
theorem splitOnSlash_append_slash (a b : List Char)
    (ha : ∀ c ∈ a, c ≠ '/') :
    splitOnSlash (a ++ '/' :: b) = a :: splitOnSlash b := by
  induction a with
  | nil =>
    rw [List.nil_append, splitOnSlash.eq_def]
    simp
  | cons c cs ih =>
    have hc : c ≠ '/' := ha c (List.mem_cons_self c cs)
    rw [List.cons_append, splitOnSlash.eq_def]
    simp only []
    rw [if_neg hc, ih fun d hd => ha d (List.mem_cons_of_mem c hd)]

/-- A slash-free list is a single segment. -/
theorem splitOnSlash_no_slash (l : List Char) (h : ∀ c ∈ l, c ≠ '/') :
    splitOnSlash l = [l] := by
  induction l with
  | nil => rfl
  | cons c cs ih =>
    have hc : c ≠ '/' := h c (List.mem_cons_self c cs)
    rw [splitOnSlash.eq_def]
    simp only []
    rw [if_neg hc, ih fun d hd => h d (List.mem_cons_of_mem c hd)]

/-- Normalization keeps a `tmp` segment followed by one ordinary segment
untouched. -/
theorem normStack_tmp (rel : List Char) (hne : rel ≠ [])
    (hd : rel ≠ ['.']) (hdd : rel ≠ ['.', '.']) :
    normStack [] ["tmp".data, rel] = ["tmp".data, rel] := by
  show normStack ["tmp".data] [rel] = ["tmp".data, rel]
  rw [normStack.eq_def]
  simp only []
  rw [if_neg (not_or.mpr ⟨hne, hd⟩), if_neg hdd]
  rfl

/-- On a slash-free relative part that is not a `.` or `..` segment,
`path.join` is plain concatenation: normalization has nothing to do. -/
theorem pathJoinTmp_flat (rel : List Char) (h : ∀ c ∈ rel, c ≠ '/')
    (hne : rel ≠ []) (hd : rel ≠ ['.']) (hdd : rel ≠ ['.', '.']) :
    pathJoinTmp rel = String.mk ("/tmp/".data ++ rel) := by
  show String.mk
      ('/' :: joinSegs (normStack [] (splitOnSlash ("tmp/".data ++ rel)))) = _
  have hs : splitOnSlash ("tmp/".data ++ rel) = ["tmp".data, rel] := by
    have h0 : "tmp/".data ++ rel = "tmp".data ++ '/' :: rel := rfl
    rw [h0, splitOnSlash_append_slash _ _ (by decide),
      splitOnSlash_no_slash rel h]
  rw [hs, normStack_tmp rel hne hd hdd]
  rfl

/-- For a slash-free upload name, the `/gif` input path is the flat
concatenation. -/
theorem gifInputPath_flat (t : Nat) (name : String)
    (hn : ∀ c ∈ name.data, c ≠ '/') :
    gifInputPath t name =
      String.mk ("/tmp/input-".data ++ (natRepr t ++ '-' :: name.data)) := by
  show pathJoinTmp ("input-".data ++ (natRepr t ++ '-' :: name.data)) = _
  rw [pathJoinTmp_flat _ ?_ (by simp) (by simp) (by simp)]
  · rfl
  · intro c hc
    simp only [List.mem_append] at hc
    rcases hc with hc | hc | hc
    · exact (by decide : ∀ c ∈ "input-".data, c ≠ '/') c hc
    · exact natRepr_ne_slash t c hc
    · rcases List.mem_cons.mp hc with rfl | hc
      · decide
      · exact hn c hc

/-- The `/gif` output path (no user-controlled part) is always the flat
concatenation. -/
theorem gifOutputPath_flat (t : Nat) :
    gifOutputPath t =
      String.mk ("/tmp/gif-".data ++ (natRepr t ++ ".gif".data)) := by
  show pathJoinTmp ("gif-".data ++ (natRepr t ++ ".gif".data)) = _
  rw [pathJoinTmp_flat _ ?_ (by simp) (by simp) (by simp)]
  · rfl
  · intro c hc
    simp only [List.mem_append] at hc
    rcases hc with hc | hc | hc
    · exact (by decide : ∀ c ∈ "gif-".data, c ≠ '/') c hc
    · exact natRepr_ne_slash t c hc
    · exact (by decide : ∀ c ∈ ".gif".data, c ≠ '/') c hc

/-- For a slash-free upload name, the `/video-info` input path is the flat
concatenation. -/
theorem infoInputPath_flat (t : Nat) (name : String)
    (hn : ∀ c ∈ name.data, c ≠ '/') :
    infoInputPath t name =
      String.mk ("/tmp/info-".data ++ (natRepr t ++ '-' :: name.data)) := by
  show pathJoinTmp ("info-".data ++ (natRepr t ++ '-' :: name.data)) = _
  rw [pathJoinTmp_flat _ ?_ (by simp) (by simp) (by simp)]
  · rfl
  · intro c hc
    simp only [List.mem_append] at hc
    rcases hc with hc | hc | hc
    · exact (by decide : ∀ c ∈ "info-".data, c ≠ '/') c hc
    · exact natRepr_ne_slash t c hc
    · rcases List.mem_cons.mp hc with rfl | hc
      · decide
      · exact hn c hc

/-- C9 counterexample, two ways the claim fails.  First: two distinct jobs
— their uploads differ, so their input temp paths differ — created in the
same `Date.now()` millisecond share the very same output temp path, since
the output name depends on the timestamp alone.  Second: the upload name is
user-controlled and only its extension is checked, so names carrying `..`
segments make even two jobs with different timestamps share one input path
after `path.join` normalization, here `/tmp/x.mp4`. -/
theorem C9_counterexample :
    (gifInputPath 1700000000000 "a.mp4" ≠ gifInputPath 1700000000000 "b.mp4" ∧
      gifOutputPath 1700000000000 = gifOutputPath 1700000000000) ∧
    gifInputPath 1700000000000 "a/../x.mp4" =
      gifInputPath 1700000000001 "b/../x.mp4" ∧
    gifInputPath 1700000000000 "a/../x.mp4" = "/tmp/x.mp4" :=
  ⟨⟨by decide, rfl⟩, by decide, by decide⟩

/-- C9 amended: when the upload names contain no path separator (so
`path.join` normalization leaves the constructed names alone), jobs whose
timestamps differ never share any temp path: same-kind paths differ because
the decimal timestamp is dash-free and injective, and different-kind paths
differ already in their fixed prefixes.  Jobs in the same millisecond, or
jobs whose upload names carry `..` segments, can collide. -/
theorem C9_distinct_timestamps_distinct_paths (t₁ t₂ : Nat) (n₁ n₂ : String)
    (h : t₁ ≠ t₂)
    (hn₁ : ∀ c ∈ n₁.data, c ≠ '/') (hn₂ : ∀ c ∈ n₂.data, c ≠ '/') :
    gifInputPath t₁ n₁ ≠ gifInputPath t₂ n₂ ∧
    gifOutputPath t₁ ≠ gifOutputPath t₂ ∧
    infoInputPath t₁ n₁ ≠ infoInputPath t₂ n₂ ∧
    gifInputPath t₁ n₁ ≠ gifOutputPath t₂ ∧
    gifInputPath t₁ n₁ ≠ infoInputPath t₂ n₂ ∧
    gifOutputPath t₁ ≠ infoInputPath t₂ n₂ := by
  rw [gifInputPath_flat t₁ n₁ hn₁, gifInputPath_flat t₂ n₂ hn₂,
    infoInputPath_flat t₁ n₁ hn₁, infoInputPath_flat t₂ n₂ hn₂,
    gifOutputPath_flat t₁, gifOutputPath_flat t₂]
  refine ⟨?_, ?_, ?_, ?_, ?_, ?_⟩
  · intro he
    have hl : "/tmp/input-".data ++ (natRepr t₁ ++ '-' :: n₁.data)
        = "/tmp/input-".data ++ (natRepr t₂ ++ '-' :: n₂.data) :=
      congrArg String.data he
    obtain ⟨h3, _⟩ := append_dash_inj _ _ _ _ (natRepr_ne_dash t₁)
      (natRepr_ne_dash t₂) (List.append_cancel_left hl)
    exact h (natRepr_injective h3)
  · intro he
    have hl : "/tmp/gif-".data ++ (natRepr t₁ ++ ".gif".data)
        = "/tmp/gif-".data ++ (natRepr t₂ ++ ".gif".data) :=
      congrArg String.data he
    exact h (natRepr_injective
      (List.append_cancel_right (List.append_cancel_left hl)))
  · intro he
    have hl : "/tmp/info-".data ++ (natRepr t₁ ++ '-' :: n₁.data)
        = "/tmp/info-".data ++ (natRepr t₂ ++ '-' :: n₂.data) :=
      congrArg String.data he
    obtain ⟨h3, _⟩ := append_dash_inj _ _ _ _ (natRepr_ne_dash t₁)
      (natRepr_ne_dash t₂) (List.append_cancel_left hl)
    exact h (natRepr_injective h3)
  · intro he
    exact append_ne_of_ne_at "/tmp/input-".data "/tmp/gif-".data
      (natRepr t₁ ++ '-' :: n₁.data) (natRepr t₂ ++ ".gif".data) 5
      (by decide) (by decide) (by decide) (congrArg String.data he)
  · intro he
    exact append_ne_of_ne_at "/tmp/input-".data "/tmp/info-".data
      (natRepr t₁ ++ '-' :: n₁.data) (natRepr t₂ ++ '-' :: n₂.data) 7
      (by decide) (by decide) (by decide) (congrArg String.data he)
  · intro he
    exact append_ne_of_ne_at "/tmp/gif-".data "/tmp/info-".data
      (natRepr t₁ ++ ".gif".data) (natRepr t₂ ++ '-' :: n₂.data) 5
      (by decide) (by decide) (by decide) (congrArg String.data he)

/-- Witness for C9 amended: consecutive-millisecond jobs with ordinary
slash-free names get distinct output paths. -/
theorem C9_distinct_timestamps_distinct_paths_witness :
    gifOutputPath 1700000000000 ≠ gifOutputPath 1700000000001 :=
  (C9_distinct_timestamps_distinct_paths 1700000000000 1700000000001
    "a.mp4" "b.mp4" (by decide) (by decide) (by decide)).2.1
